import Mathlib

/-!
Verification of the service worker in `src/public/sw.js` of the
customer-app repository.  The worker's push-payload decoder, notification
presenter, caching strategies and lifecycle handlers are shallowly embedded
as executable Lean definitions, and the specification's claims about them
are settled as theorems below the definitions.
-/

namespace SW

/-- JavaScript/JSON values: the payloads carried by push messages and the
bodies of responses.  `jnull` also stands for JavaScript `undefined`
(the two are indistinguishable for the truthiness tests the worker makes). -/
inductive JValue where
  | jnull
  | jbool (b : Bool)
  | jnum (n : Int)
  | jstr (s : String)
  | jarr (xs : List JValue)
  | jobj (fields : List (String × JValue))

/-- JavaScript truthiness: `null`/`undefined`, `false`, `0` and the empty
string are falsy; every array and object (including empty ones) is truthy. -/
def truthy : JValue → Bool
  | .jnull => false
  | .jbool b => b
  | .jnum n => n != 0
  | .jstr s => !s.data.isEmpty
  | .jarr _ => true
  | .jobj _ => true

/-- JavaScript `x || y`: `x` if truthy, else `y`. -/
def jsOr (x y : JValue) : JValue := if truthy x then x else y

/-- First-match lookup in an object's field list. -/
def lookupField : List (String × JValue) → String → JValue
  | [], _ => .jnull
  | (k, v) :: rest, key => if k = key then v else lookupField rest key

/-- JavaScript property access `v.key`: the field when `v` is an object and
has it, `undefined` (here `jnull`) otherwise, as for arrays and primitives. -/
def getField : JValue → String → JValue
  | .jobj fields, key => lookupField fields key
  | _, _ => .jnull

/-- JavaScript `typeof v === 'object'`: true for `null`, arrays and objects. -/
def typeofObject : JValue → Bool
  | .jnull => true
  | .jarr _ => true
  | .jobj _ => true
  | _ => false

/-- Values that are neither arrays nor objects: `null`, booleans, numbers,
strings. -/
def jsPrimitive : JValue → Bool
  | .jarr _ => false
  | .jobj _ => false
  | _ => true

/-- Whitespace characters recognised by the model of `String.prototype.trim`. -/
def isWs (c : Char) : Bool := c == ' ' || c == '\t' || c == '\n' || c == '\r'

/-- `s.trim()` is truthy, i.e. `s` has a character that is not whitespace. -/
def trimmedNonempty (s : String) : Bool := s.data.any (fun c => !isWs c)

/-- The normalized notification payload built by the push handler
(`sw.js` lines 159-212).  In the source every field of `notificationData`
holds a JavaScript value, so every field is a `JValue` here. -/
structure NotificationPayload where
  title : JValue
  body : JValue
  icon : JValue
  badge : JValue
  data : JValue

/-- The initial `notificationData` value of the push handler
(`sw.js` lines 159-165). -/
def defaultPayload : NotificationPayload :=
  { title := .jstr "New Notification"
    body := .jstr "You have a new notification"
    icon := .jstr "/logo.svg"
    badge := .jstr "/logo.svg"
    data := .jobj [] }

/-- Outcome of the two extraction methods of a push event's data object:
`text` models `event.data.text()` and `json` models `event.data.json()`,
each either succeeding with its value or throwing. -/
structure PushData where
  text : Except Unit String
  json : Except Unit JValue

/-- The field merge performed when a parsed payload is a truthy object
(`sw.js` lines 178-184 and 197-203): each recognised field is taken from the
payload when truthy and otherwise left at the default; `data` falls back to
an empty object. -/
def mergeOver (j : JValue) : NotificationPayload :=
  { title := jsOr (getField j "title") defaultPayload.title
    body := jsOr (getField j "body") defaultPayload.body
    icon := jsOr (getField j "icon") defaultPayload.icon
    badge := jsOr (getField j "badge") defaultPayload.badge
    data := jsOr (getField j "data") (.jobj []) }

/-- The push payload decoder (`sw.js` lines 158-212).  `parse` models the
platform's `JSON.parse`; `ev` is `none` when the push event carries no data.
If `text()` throws, `json()` is tried and `rawData` stays `null`, so the
parse-of-text branch is skipped; if `text()` succeeds and is non-empty, its
result is parsed, a truthy object is merged, and a parse error makes the raw
text the body when it trims non-empty. -/
def decodePush (parse : String → Except Unit JValue) (ev : Option PushData) :
    NotificationPayload :=
  match ev with
  | none => defaultPayload
  | some d =>
    match d.text with
    | .error _ =>
      match d.json with
      | .ok j => if truthy j && typeofObject j then mergeOver j else defaultPayload
      | .error _ => defaultPayload
    | .ok rawData =>
      if rawData.data.isEmpty then defaultPayload
      else
        match parse rawData with
        | .ok parsed =>
          if truthy parsed && typeofObject parsed then mergeOver parsed else defaultPayload
        | .error _ =>
          if trimmedNonempty rawData then { defaultPayload with body := .jstr rawData }
          else defaultPayload

/-- The options record passed to `showNotification` (`sw.js` lines 215-232).
`icon` and `badge` are `Option` because the source adds those keys only
conditionally. -/
structure NotificationOptions where
  body : JValue
  data : JValue
  tag : String
  requireInteraction : Bool
  vibrate : List Nat
  timestamp : Nat
  icon : Option JValue
  badge : Option JValue

/-- Construction of the notification options (`sw.js` lines 215-232): `icon`
and `badge` are added exactly when the corresponding payload field is truthy.
`now` models `Date.now()`. -/
def buildNotificationOptions (now : Nat) (nd : NotificationPayload) :
    NotificationOptions :=
  { body := nd.body
    data := nd.data
    tag := "notification"
    requireInteraction := false
    vibrate := [200, 100, 200]
    timestamp := now
    icon := if truthy nd.icon then some nd.icon else none
    badge := if truthy nd.badge then some nd.badge else none }

/-- Same-origin class of a response (`Response.type` in the platform):
`basic` is same-origin; `cors`/`opaqueType` are cross-origin; `defaultType`
is a worker-constructed response; `errorType` a network-error response. -/
inductive ResType where
  | basic
  | cors
  | opaqueType
  | defaultType
  | errorType
deriving DecidableEq

/-- A response snapshot: status line, same-origin class, content type and
body.  The body is kept as a `JValue` (a string body is `jstr`), so the
synthesized JSON error body of the network-first strategy can be stated
exactly. -/
structure Response where
  status : Nat
  statusText : String
  resType : ResType
  contentType : Option String
  body : JValue

/-- One cache store: an association list from request key (absolute URL)
to the stored response. -/
abbrev Store := List (String × Response)

/-- The full cache system: an association list from store name to store,
in creation order (`caches` in the platform). -/
abbrev CacheState := List (String × Store)

/-- Lookup in one store (`cache.match`): the first entry with the key. -/
def storeGet : Store → String → Option Response
  | [], _ => none
  | (k, v) :: rest, u => if k = u then some v else storeGet rest u

/-- Drop every entry with the given key from a store. -/
def removeKey : Store → String → Store
  | [], _ => []
  | (k', v') :: rest, k =>
    if k' = k then removeKey rest k else (k', v') :: removeKey rest k

/-- Overwriting write into one store (`cache.put`): any previous entry for
the key is replaced. -/
def storePut (s : Store) (k : String) (v : Response) : Store :=
  (k, v) :: removeKey s k

/-- `caches.open`: returns the state unchanged when the named store exists
and otherwise creates it empty. -/
def cachesOpen : CacheState → String → CacheState
  | [], n => [(n, [])]
  | (m, s) :: rest, n => if m = n then (m, s) :: rest else (m, s) :: cachesOpen rest n

/-- Whether a store with the given name exists. -/
def hasStore : CacheState → String → Bool
  | [], _ => false
  | (m, _) :: rest, n => if m = n then true else hasStore rest n

/-- The store with the given name, empty when absent. -/
def getStore : CacheState → String → Store
  | [], _ => []
  | (m, s) :: rest, n => if m = n then s else getStore rest n

/-- Replace the named store's contents by a put of `(k, v)`. -/
def putInStores : CacheState → String → String → Response → CacheState
  | [], _, _, _ => []
  | (m, s) :: rest, n, k, v =>
    if m = n then (m, storePut s k v) :: rest else (m, s) :: putInStores rest n k v

/-- `caches.open(n)` followed by `cache.put(k, v)` on the opened store. -/
def cachePutIn (cs : CacheState) (n k : String) (v : Response) : CacheState :=
  putInStores (cachesOpen cs n) n k v

/-- `caches.match`: search every store in order for the key. -/
def cachesMatch : CacheState → String → Option Response
  | [], _ => none
  | (_, s) :: rest, u =>
    match storeGet s u with
    | some r => some r
    | none => cachesMatch rest u

/-- A live cache entry: some store holds the pair `(k, v)`. -/
def entryIn (cs : CacheState) (k : String) (v : Response) : Prop :=
  ∃ p ∈ cs, (k, v) ∈ p.2

/-- The static cache name (`sw.js` line 4). -/
def CACHE_NAME : String := "artisan-roasters-v1"

/-- The runtime cache name (`sw.js` line 5). -/
def RUNTIME_CACHE : String := "artisan-roasters-runtime-v1"

/-- The install-time asset list (`sw.js` lines 8-13). -/
def STATIC_ASSETS : List String := ["/", "/index.html", "/logo.svg", "/manifest.json"]

/-- An intercepted request, carrying the components the router reads:
the full URL (the cache key), its parsed protocol and pathname, the
method and the accept header. -/
structure Request where
  url : String
  protocol : String
  pathname : String
  method : String
  accept : Option String

/-- `pat` is a prefix of `s` (model of `String.prototype.startsWith`). -/
def strStarts (s pat : String) : Bool := pat.data.isPrefixOf s.data

/-- `pat` is a suffix of `s` (model of the `$`-anchored regexp test). -/
def strEnds (s pat : String) : Bool := pat.data.reverse.isPrefixOf s.data.reverse

/-- `pat` occurs in `s` (model of `String.prototype.includes`). -/
def containsSeq (pat : List Char) : List Char → Bool
  | [] => pat.isEmpty
  | c :: rest => pat.isPrefixOf (c :: rest) || containsSeq pat rest

/-- The static-extension alternatives of the regexp on `sw.js` line 74. -/
def STATIC_EXTENSIONS : List String :=
  ["js", "css", "png", "jpg", "jpeg", "gif", "svg", "ico", "woff", "woff2", "ttf", "eot"]

/-- The StaticAsset path test (`sw.js` lines 73-77): a known extension, the
root path, or the index document. -/
def isStaticPath (p : String) : Bool :=
  STATIC_EXTENSIONS.any (fun e => strEnds p ("." ++ e)) || p == "/" || p == "/index.html"

/-- The HtmlNavigation test (`sw.js` line 101):
`request.headers.get('accept')?.includes('text/html')`. -/
def acceptsHtml (r : Request) : Bool :=
  match r.accept with
  | some a => containsSeq "text/html".data a.data
  | none => false

/-- The request classes of the strategy router. -/
inductive RequestClass where
  | skipped
  | staticAsset
  | htmlNav
  | apiCall
  | other
deriving DecidableEq

/-- The strategy router (`sw.js` lines 55-122): non-GET and non-http(s)
requests are not intercepted; then the StaticAsset test, the accept-header
test and the `/api/` prefix test apply in this order. -/
def classify (r : Request) : RequestClass :=
  if r.method != "GET" then .skipped
  else if !strStarts r.protocol "http" then .skipped
  else if isStaticPath r.pathname then .staticAsset
  else if acceptsHtml r then .htmlNav
  else if strStarts r.pathname "/api/" then .apiCall
  else .other

/-- What the page observes from one intercepted fetch: not intercepted at
all, responded with a response, or a failed fetch (the strategy's promise
rejected or resolved without a response). -/
inductive FetchResult where
  | passthrough
  | responded (r : Response)
  | failed

/-- Result of running one strategy: the observed outcome, the cache state
afterwards, and how many network fetches were made. -/
structure StratOut where
  res : FetchResult
  st : CacheState
  netCalls : Nat

/-- Cache-first strategy (`sw.js` lines 78-97): serve a hit from the cache
with no fetch; on a miss fetch, and persist only a 200 same-origin
response into the static store. -/
def cacheFirst (net : Request → Except Unit Response) (cs : CacheState) (r : Request) :
    StratOut :=
  match cachesMatch cs r.url with
  | some resp => ⟨.responded resp, cs, 0⟩
  | none =>
    match net r with
    | .error _ => ⟨.failed, cs, 1⟩
    | .ok resp =>
      if resp.status = 200 ∧ resp.resType = ResType.basic then
        ⟨.responded resp, cachePutIn cs CACHE_NAME r.url resp, 1⟩
      else ⟨.responded resp, cs, 1⟩

/-- Stale-while-revalidate strategy (`sw.js` lines 101-118): open the
runtime store, look the key up, always fetch; a 200 network response is
written back; the call resolves to the cached value when one existed, else
to the network result, and to no response when both are missing. -/
def swr (net : Request → Except Unit Response) (cs : CacheState) (r : Request) :
    StratOut :=
  let cs1 := cachesOpen cs RUNTIME_CACHE
  let cached := storeGet (getStore cs1 RUNTIME_CACHE) r.url
  match net r with
  | .ok nr =>
    let cs2 := if nr.status = 200 then cachePutIn cs1 RUNTIME_CACHE r.url nr else cs1
    ⟨match cached with
      | some a => .responded a
      | none => .responded nr, cs2, 1⟩
  | .error _ =>
    ⟨match cached with
      | some a => .responded a
      | none => .failed, cs1, 1⟩

/-- The synthesized offline response of the network-first strategy
(`sw.js` lines 134-141). -/
def offlineApiResponse : Response :=
  { status := 503
    statusText := "Service Unavailable"
    resType := .defaultType
    contentType := some "application/json"
    body := .jobj [("error", .jstr "Network unavailable and no cached data")] }

/-- Network-first strategy (`sw.js` lines 122-147): fetch first, writing a
200 response into the runtime store; on network failure fall back to the
runtime store, and failing that synthesize the fixed 503 JSON response. -/
def networkFirst (net : Request → Except Unit Response) (cs : CacheState) (r : Request) :
    StratOut :=
  let cs1 := cachesOpen cs RUNTIME_CACHE
  match net r with
  | .ok nr =>
    let cs2 := if nr.status = 200 then cachePutIn cs1 RUNTIME_CACHE r.url nr else cs1
    ⟨.responded nr, cs2, 1⟩
  | .error _ =>
    ⟨match storeGet (getStore cs1 RUNTIME_CACHE) r.url with
      | some c => .responded c
      | none => .responded offlineApiResponse, cs1, 1⟩

/-- Default passthrough (`sw.js` lines 150-154): fetch, and on failure try
one lookup across all stores; never writes. -/
def defaultPassthrough (net : Request → Except Unit Response) (cs : CacheState)
    (r : Request) : StratOut :=
  match net r with
  | .ok nr => ⟨.responded nr, cs, 1⟩
  | .error _ =>
    ⟨match cachesMatch cs r.url with
      | some c => .responded c
      | none => .failed, cs, 1⟩

/-- The fetch event handler: route by class and run the strategy. -/
def handleFetch (net : Request → Except Unit Response) (cs : CacheState) (r : Request) :
    StratOut :=
  match classify r with
  | .skipped => ⟨.passthrough, cs, 0⟩
  | .staticAsset => cacheFirst net cs r
  | .htmlNav => swr net cs r
  | .apiCall => networkFirst net cs r
  | .other => defaultPassthrough net cs r

/-- A placeholder response, used only to give total functions a value on
branches that hypotheses rule out. -/
def dummyResponse : Response :=
  { status := 0, statusText := "", resType := .errorType, contentType := none,
    body := .jnull }

/-- Whether fetching one install asset succeeds with an ok (2xx) status:
`cache.addAll` rejects for a failed fetch and for any non-ok response. -/
def assetOk (net : String → Except Unit Response) (u : String) : Bool :=
  match net u with
  | .ok r => decide (200 ≤ r.status ∧ r.status ≤ 299)
  | .error _ => false

/-- The fetch phase of `cache.addAll`: every listed URL must fetch with an
ok status, else the whole batch rejects (the batch cache operation of the
platform is atomic: on any failure nothing is added). -/
def fetchAllOk (net : String → Except Unit Response) :
    List String → Except Unit (List (String × Response))
  | [] => .ok []
  | u :: rest =>
    match net u with
    | .error _ => .error ()
    | .ok r =>
      if 200 ≤ r.status ∧ r.status ≤ 299 then
        match fetchAllOk net rest with
        | .ok ps => .ok ((u, r) :: ps)
        | .error _ => .error ()
      else .error ()

/-- Write a batch of fetched pairs into the named store, in order. -/
def putMany : CacheState → String → List (String × Response) → CacheState
  | cs, _, [] => cs
  | cs, n, p :: rest => putMany (cachePutIn cs n p.1 p.2) n rest

/-- The response a net function gave for a URL (meaningful under
`assetOk`). -/
def respOf (net : String → Except Unit Response) (u : String) : Response :=
  match net u with
  | .ok r => r
  | .error _ => dummyResponse

/-- The install handler over an explicit asset list (`sw.js` lines 16-31):
open the static store, run `cache.addAll` over the list, and swallow its
failure (the `catch` resolves), so installation always completes and the
resulting state is returned. -/
def installWith (net : String → Except Unit Response) (assets : List String)
    (cs : CacheState) : CacheState :=
  match fetchAllOk net assets with
  | .ok pairs => putMany (cachesOpen cs CACHE_NAME) CACHE_NAME pairs
  | .error _ => cachesOpen cs CACHE_NAME

/-- The install handler on the source's asset list. -/
def installEvent (net : String → Except Unit Response) (cs : CacheState) : CacheState :=
  installWith net STATIC_ASSETS cs

/-- Result of the activate handler: the cache state afterwards, the store
names whose deletion was attempted, and whether every deletion succeeded
(when false, the chained `clients.claim()` is skipped because
`Promise.all` rejected). -/
structure ActOut where
  st : CacheState
  attempted : List String
  allOk : Bool

/-- The stale store names: every existing name that is neither the current
static nor the current runtime name (`sw.js` line 41). -/
def staleNames (cs : CacheState) : List String :=
  (cs.map Prod.fst).filter (fun n => !(n == CACHE_NAME || n == RUNTIME_CACHE))

/-- The activate handler (`sw.js` lines 34-52) under a per-name deletion
failure oracle `delFails`.  The `map` starts a `caches.delete` for every
stale name before `Promise.all` joins them, so every stale deletion is
attempted even when another fails; a failed deletion leaves its store in
place. -/
def activateOn (delFails : String → Bool) (cs : CacheState) : ActOut :=
  { st := cs.filter (fun p => p.1 == CACHE_NAME || p.1 == RUNTIME_CACHE || delFails p.1)
    attempted := staleNames cs
    allOk := (staleNames cs).all (fun n => !delFails n) }

/-! ### Cache-layer lemmas -/

theorem getStore_open_self (cs : CacheState) (n : String) :
    getStore (cachesOpen cs n) n = getStore cs n := by
  induction cs with
  | nil => simp [cachesOpen, getStore]
  | cons p rest ih =>
    obtain ⟨m, s⟩ := p
    by_cases h : m = n <;> simp [cachesOpen, getStore, h, ih]

theorem hasStore_open (cs : CacheState) (n : String) :
    hasStore (cachesOpen cs n) n = true := by
  induction cs with
  | nil => simp [cachesOpen, hasStore]
  | cons p rest ih =>
    obtain ⟨m, s⟩ := p
    by_cases h : m = n <;> simp [cachesOpen, hasStore, h, ih]

theorem getStore_putInStores_self (cs : CacheState) (n k : String) (v : Response)
    (h : hasStore cs n = true) :
    getStore (putInStores cs n k v) n = storePut (getStore cs n) k v := by
  induction cs with
  | nil => simp [hasStore] at h
  | cons p rest ih =>
    obtain ⟨m, s⟩ := p
    by_cases hm : m = n
    · simp [putInStores, getStore, hm]
    · rw [hasStore, if_neg hm] at h
      simp [putInStores, getStore, hm, ih h]

theorem getStore_cachePutIn_self (cs : CacheState) (n k : String) (v : Response) :
    getStore (cachePutIn cs n k v) n = storePut (getStore cs n) k v := by
  rw [cachePutIn, getStore_putInStores_self _ _ _ _ (hasStore_open cs n),
    getStore_open_self]

theorem storeGet_removeKey (s : Store) (k u : String) (h : k ≠ u) :
    storeGet (removeKey s k) u = storeGet s u := by
  induction s with
  | nil => rfl
  | cons q rest ih =>
    obtain ⟨k', v'⟩ := q
    rw [removeKey]
    by_cases hq : k' = k
    · rw [if_pos hq, ih]
      rw [storeGet, if_neg (fun hh => h (hq.symm.trans hh))]
    · rw [if_neg hq]
      by_cases hu : k' = u
      · rw [storeGet, storeGet, if_pos hu, if_pos hu]
      · rw [storeGet, storeGet, if_neg hu, if_neg hu, ih]

theorem storeGet_storePut (s : Store) (k : String) (v : Response) (u : String) :
    storeGet (storePut s k v) u = if k = u then some v else storeGet s u := by
  by_cases h : k = u
  · simp [storePut, storeGet, h]
  · simp [storePut, storeGet, h, storeGet_removeKey s k u h]

theorem mem_of_mem_removeKey {s : Store} {key : String} {q : String × Response}
    (h : q ∈ removeKey s key) : q ∈ s := by
  induction s with
  | nil => exact absurd h (List.not_mem_nil q)
  | cons p rest ih =>
    obtain ⟨k', v'⟩ := p
    by_cases hk : k' = key
    · rw [removeKey, if_pos hk] at h
      exact List.mem_cons_of_mem _ (ih h)
    · rw [removeKey, if_neg hk] at h
      rcases List.mem_cons.mp h with h' | h'
      · exact h' ▸ List.mem_cons_self _ _
      · exact List.mem_cons_of_mem _ (ih h')

theorem entryIn_cons (m : String) (s : Store) (rest : CacheState) (k : String)
    (v : Response) :
    entryIn ((m, s) :: rest) k v ↔ (k, v) ∈ s ∨ entryIn rest k v := by
  constructor
  · rintro ⟨p, hp, hm⟩
    rcases List.mem_cons.mp hp with h | h
    · subst h; exact Or.inl hm
    · exact Or.inr ⟨p, h, hm⟩
  · rintro (h | ⟨p, hp, hm⟩)
    · exact ⟨(m, s), List.mem_cons_self _ _, h⟩
    · exact ⟨p, List.mem_cons_of_mem _ hp, hm⟩

theorem entryIn_nil (k : String) (v : Response) : ¬ entryIn ([] : CacheState) k v := by
  rintro ⟨p, hp, _⟩
  exact absurd hp (List.not_mem_nil p)

theorem entryIn_open (cs : CacheState) (n k : String) (v : Response) :
    entryIn (cachesOpen cs n) k v ↔ entryIn cs k v := by
  induction cs with
  | nil =>
    simp only [cachesOpen]
    rw [entryIn_cons]
    simp [entryIn_nil, List.not_mem_nil]
  | cons p rest ih =>
    obtain ⟨m, s⟩ := p
    by_cases h : m = n
    · simp [cachesOpen, h]
    · simp only [cachesOpen, if_neg h]
      rw [entryIn_cons, entryIn_cons, ih]

theorem entryIn_putInStores (cs : CacheState) (n key : String) (val : Response)
    (k : String) (v : Response) (h : entryIn (putInStores cs n key val) k v) :
    entryIn cs k v ∨ (k = key ∧ v = val) := by
  induction cs with
  | nil =>
    rw [putInStores] at h
    exact absurd h (entryIn_nil k v)
  | cons p rest ih =>
    obtain ⟨m, s⟩ := p
    by_cases hm : m = n
    · rw [putInStores, if_pos hm, entryIn_cons] at h
      rcases h with hmem | hrest
      · rcases List.mem_cons.mp hmem with he | hf
        · right
          exact ⟨congrArg Prod.fst he, congrArg Prod.snd he⟩
        · left
          exact (entryIn_cons m s rest k v).mpr (Or.inl (mem_of_mem_removeKey hf))
      · left
        exact (entryIn_cons m s rest k v).mpr (Or.inr hrest)
    · rw [putInStores, if_neg hm, entryIn_cons] at h
      rcases h with hmem | hrest
      · left
        exact (entryIn_cons m s rest k v).mpr (Or.inl hmem)
      · rcases ih hrest with h' | h'
        · left
          exact (entryIn_cons m s rest k v).mpr (Or.inr h')
        · right
          exact h'

theorem entryIn_cachePutIn (cs : CacheState) (n key : String) (val : Response)
    (k : String) (v : Response) (h : entryIn (cachePutIn cs n key val) k v) :
    entryIn cs k v ∨ (k = key ∧ v = val) := by
  rcases entryIn_putInStores _ _ _ _ _ _ h with h' | h'
  · exact Or.inl ((entryIn_open cs n k v).mp h')
  · exact Or.inr h'

/-! ### Push decoder lemmas -/

theorem truthy_jsOr_right (x y : JValue) (h : truthy y = true) :
    truthy (jsOr x y) = true := by
  rw [jsOr]
  by_cases hx : truthy x = true
  · rw [if_pos hx]
    exact hx
  · rw [if_neg hx]
    exact h

theorem mergeOver_truthy (j : JValue) :
    truthy (mergeOver j).title = true ∧ truthy (mergeOver j).body = true ∧
    truthy (mergeOver j).icon = true ∧ truthy (mergeOver j).badge = true :=
  ⟨truthy_jsOr_right _ _ rfl, truthy_jsOr_right _ _ rfl,
   truthy_jsOr_right _ _ rfl, truthy_jsOr_right _ _ rfl⟩

theorem decodePush_truthy (parse : String → Except Unit JValue) (ev : Option PushData) :
    truthy (decodePush parse ev).title = true ∧ truthy (decodePush parse ev).body = true ∧
    truthy (decodePush parse ev).icon = true ∧ truthy (decodePush parse ev).badge = true := by
  rcases ev with _ | d
  · exact ⟨rfl, rfl, rfl, rfl⟩
  · rcases htext : d.text with u | rawData
    · rcases hjson : d.json with u2 | j
      · simp only [decodePush, htext, hjson]
        exact ⟨rfl, rfl, rfl, rfl⟩
      · simp only [decodePush, htext, hjson]
        by_cases hobj : (truthy j && typeofObject j) = true
        · rw [if_pos hobj]
          exact mergeOver_truthy j
        · rw [if_neg hobj]
          exact ⟨rfl, rfl, rfl, rfl⟩
    · simp only [decodePush, htext]
      by_cases hemp : rawData.data.isEmpty = true
      · rw [if_pos hemp]
        exact ⟨rfl, rfl, rfl, rfl⟩
      · rw [if_neg hemp]
        rcases hp : parse rawData with u | parsed
        · simp only [hp]
          by_cases htr : trimmedNonempty rawData = true
          · rw [if_pos htr]
            refine ⟨rfl, ?_, rfl, rfl⟩
            show (!rawData.data.isEmpty) = true
            cases hB : rawData.data.isEmpty with
            | true => exact absurd hB hemp
            | false => simp [hB]
          · rw [if_neg htr]
            exact ⟨rfl, rfl, rfl, rfl⟩
        · simp only [hp]
          by_cases hobj : (truthy parsed && typeofObject parsed) = true
          · rw [if_pos hobj]
            exact mergeOver_truthy parsed
          · rw [if_neg hobj]
            exact ⟨rfl, rfl, rfl, rfl⟩

/-! ### Claims about the push decoder and the presenter -/

/-- C8: for every push input, including an absent payload and every byte
sequence whose extraction or parsing fails, the decoder terminates (it is a
total function) and produces a fully-populated payload whose title, body,
icon and badge are all truthy, i.e. non-empty; the absent-payload case is
exactly the default payload.  No branch yields a missing title or body. -/
theorem push_decoder_always_populated (parse : String → Except Unit JValue)
    (ev : Option PushData) :
    truthy (decodePush parse ev).title = true ∧
    truthy (decodePush parse ev).body = true ∧
    truthy (decodePush parse ev).icon = true ∧
    truthy (decodePush parse ev).badge = true ∧
    decodePush parse none = defaultPayload :=
  ⟨(decodePush_truthy parse ev).1, (decodePush_truthy parse ev).2.1,
   (decodePush_truthy parse ev).2.2.1, (decodePush_truthy parse ev).2.2.2, rfl⟩

/-- A parse model that always fails (its value is irrelevant for a push
event with no data). -/
def noParse : String → Except Unit JValue := fun _ => .error ()

/-- C9 counterexample: a push event with no data leaves icon and badge at
their default values, yet the presenter still puts both into the options
passed to `showNotification`, because the source tests truthiness, not
non-defaultness, and the defaults are truthy. -/
theorem presenter_includes_default_icon :
    (decodePush noParse none).icon = defaultPayload.icon ∧
    (buildNotificationOptions 0 (decodePush noParse none)).icon
        = some defaultPayload.icon ∧
    (buildNotificationOptions 0 (decodePush noParse none)).badge
        = some defaultPayload.badge :=
  ⟨rfl, rfl, rfl⟩

/-- C9 amended: the presenter includes the icon and badge fields whenever
they are truthy; since the decoder always produces truthy icon and badge
values (the defaults included), both fields are always present in the
options, also for payloads that left them at their defaults. -/
theorem presenter_icon_badge_always_present (parse : String → Except Unit JValue)
    (ev : Option PushData) (now : Nat) :
    (buildNotificationOptions now (decodePush parse ev)).icon
        = some (decodePush parse ev).icon ∧
    (buildNotificationOptions now (decodePush parse ev)).badge
        = some (decodePush parse ev).badge := by
  obtain ⟨-, -, hi, hb⟩ := decodePush_truthy parse ev
  constructor
  · simp only [buildNotificationOptions]
    rw [if_pos hi]
  · simp only [buildNotificationOptions]
    rw [if_pos hb]

/-- C10: when text extraction succeeds and the text parses as valid JSON
whose value is not an object (a JSON string, number, boolean or null), the
decoder returns the all-default payload: the treat-text-as-body branch runs
only when parsing throws, so the non-empty text is not used as the body. -/
theorem push_nonobject_json_yields_defaults (parse : String → Except Unit JValue)
    (d : PushData) (rawData : String) (v : JValue)
    (htext : d.text = .ok rawData) (hparse : parse rawData = .ok v)
    (hprim : jsPrimitive v = true) :
    decodePush parse (some d) = defaultPayload := by
  simp only [decodePush, htext]
  by_cases hemp : rawData.data.isEmpty = true
  · rw [if_pos hemp]
  · rw [if_neg hemp]
    simp only [hparse]
    rcases v with _ | b | n | s | xs | fs
    · rw [if_neg (by simp [truthy, typeofObject])]
    · rw [if_neg (by simp [truthy, typeofObject])]
    · rw [if_neg (by simp [truthy, typeofObject])]
    · rw [if_neg (by simp [truthy, typeofObject])]
    · simp [jsPrimitive] at hprim
    · simp [jsPrimitive] at hprim

/-- A parse model under which every string parses to the JSON string
value `hello`. -/
def parseAsHello : String → Except Unit JValue := fun _ => .ok (.jstr "hello")

/-- A push event whose text extraction yields the JSON text `"hello"`. -/
def pushStringJson : PushData := { text := .ok "\"hello\"", json := .error () }

/-- Witness for C10: the concrete JSON-string payload decodes to the
all-default payload. -/
theorem push_nonobject_json_yields_defaults_witness :
    decodePush parseAsHello (some pushStringJson) = defaultPayload :=
  push_nonobject_json_yields_defaults parseAsHello pushStringJson "\"hello\""
    (.jstr "hello") rfl rfl rfl

/-! ### Claims about the fetch strategies -/

/-- C7: for every StaticAsset-class request with a cached entry for its key,
the cache-first strategy responds with that entry, leaves the cache
unchanged and performs zero network fetches. -/
theorem static_cache_hit_no_network (net : Request → Except Unit Response)
    (cs : CacheState) (r : Request) (resp : Response)
    (hclass : classify r = RequestClass.staticAsset)
    (hhit : cachesMatch cs r.url = some resp) :
    handleFetch net cs r = ⟨.responded resp, cs, 0⟩ := by
  simp only [handleFetch, hclass, cacheFirst, hhit]

/-- A network model on which every fetch fails. -/
def netFailAll : Request → Except Unit Response := fun _ => .error ()

/-- A cached stylesheet request and entry for the C7 witness. -/
def rCss : Request :=
  { url := "https://app.example/main.css", protocol := "https:",
    pathname := "/main.css", method := "GET", accept := none }

/-- The stylesheet response cached for the C7 witness. -/
def cssResp : Response :=
  { status := 200, statusText := "OK", resType := .basic,
    contentType := some "text/css", body := .jstr "css-bytes" }

/-- A cache state holding the stylesheet in the static store. -/
def csWithCss : CacheState := [(CACHE_NAME, [(rCss.url, cssResp)])]

/-- Witness for C7: the concrete cached stylesheet is served with zero
network calls even though every network fetch fails. -/
theorem static_cache_hit_no_network_witness :
    handleFetch netFailAll csWithCss rCss = ⟨.responded cssResp, csWithCss, 0⟩ :=
  static_cache_hit_no_network netFailAll csWithCss rCss cssResp (by decide) rfl

/-- C1: for every ApiCall-class GET request the router runs the
network-first strategy, which never fails: a 200 network response is
returned and written to the runtime store; on network failure the cached
runtime entry is returned when present; with neither, the synthesized
offline response is returned, and that response has status 503, JSON
content type, and exactly the body
`error: Network unavailable and no cached data`. -/
theorem api_network_first_contract (net : Request → Except Unit Response)
    (cs : CacheState) (r : Request) (hclass : classify r = RequestClass.apiCall) :
    handleFetch net cs r = networkFirst net cs r ∧
    (∀ nr, net r = .ok nr → nr.status = 200 →
        (networkFirst net cs r).res = .responded nr ∧
        storeGet (getStore (networkFirst net cs r).st RUNTIME_CACHE) r.url = some nr) ∧
    (∀ c, net r = .error () → storeGet (getStore cs RUNTIME_CACHE) r.url = some c →
        (networkFirst net cs r).res = .responded c) ∧
    (net r = .error () → storeGet (getStore cs RUNTIME_CACHE) r.url = none →
        (networkFirst net cs r).res = .responded offlineApiResponse) ∧
    (∃ resp, (networkFirst net cs r).res = .responded resp) ∧
    offlineApiResponse.status = 503 ∧
    offlineApiResponse.contentType = some "application/json" ∧
    offlineApiResponse.body
        = .jobj [("error", .jstr "Network unavailable and no cached data")] := by
  refine ⟨by simp only [handleFetch, hclass], ?_, ?_, ?_, ?_, rfl, rfl, rfl⟩
  · intro nr hnet h200
    constructor
    · simp only [networkFirst, hnet]
    · simp only [networkFirst, hnet]
      rw [if_pos h200, getStore_cachePutIn_self, storeGet_storePut, if_pos rfl]
  · intro c hnet hc
    simp only [networkFirst, hnet, getStore_open_self, hc]
  · intro hnet hc
    simp only [networkFirst, hnet, getStore_open_self, hc]
  · rcases hnet : net r with u | nr
    · rcases hc : storeGet (getStore (cachesOpen cs RUNTIME_CACHE) RUNTIME_CACHE) r.url
        with _ | c
      · exact ⟨offlineApiResponse, by simp only [networkFirst, hnet, hc]⟩
      · exact ⟨c, by simp only [networkFirst, hnet, hc]⟩
    · exact ⟨nr, by simp only [networkFirst, hnet]⟩

/-- An ApiCall-class request for the witnesses. -/
def rApi : Request :=
  { url := "https://app.example/api/points", protocol := "https:",
    pathname := "/api/points", method := "GET", accept := none }

/-- Witness for C1: with the network down and an empty cache system, the
concrete API request resolves to the synthesized offline response. -/
theorem api_network_first_contract_witness :
    (networkFirst netFailAll ([] : CacheState) rApi).res
        = .responded offlineApiResponse :=
  (api_network_first_contract netFailAll [] rApi (by decide)).2.2.2.1 rfl rfl

theorem swr_cached_hit (net2 : Request → Except Unit Response) (cs' : CacheState)
    (r : Request) (b : Response)
    (h : storeGet (getStore cs' RUNTIME_CACHE) r.url = some b) :
    (swr net2 cs' r).res = .responded b := by
  rcases hnet2 : net2 r with u | nr2 <;>
    simp only [swr, getStore_open_self, h, hnet2]

/-- C3: for every HtmlNavigation request the router runs
stale-while-revalidate: with a cached value the call resolves to it, and a
200 network result is written so that any subsequent identical request
resolves to that network result; with no cached value the call resolves to
the network result; a network failure falls back to the cached value when
present; and when neither cache nor network succeeds the fetch fails. -/
theorem html_swr_contract (net : Request → Except Unit Response) (cs : CacheState)
    (r : Request) (hclass : classify r = RequestClass.htmlNav) :
    handleFetch net cs r = swr net cs r ∧
    (∀ a, storeGet (getStore cs RUNTIME_CACHE) r.url = some a →
        (swr net cs r).res = .responded a ∧
        (∀ b, net r = .ok b → b.status = 200 →
          ∀ net2, (swr net2 (swr net cs r).st r).res = .responded b)) ∧
    (∀ b, storeGet (getStore cs RUNTIME_CACHE) r.url = none → net r = .ok b →
        (swr net cs r).res = .responded b) ∧
    (∀ a, storeGet (getStore cs RUNTIME_CACHE) r.url = some a → net r = .error () →
        (swr net cs r).res = .responded a) ∧
    (storeGet (getStore cs RUNTIME_CACHE) r.url = none → net r = .error () →
        (swr net cs r).res = FetchResult.failed) := by
  refine ⟨by simp only [handleFetch, hclass], ?_, ?_, ?_, ?_⟩
  · intro a ha
    constructor
    · rcases hnet : net r with u | nr <;>
        simp only [swr, getStore_open_self, ha, hnet]
    · intro b hb h200 net2
      have hst : (swr net cs r).st
          = cachePutIn (cachesOpen cs RUNTIME_CACHE) RUNTIME_CACHE r.url b := by
        simp only [swr, hb]
        rw [if_pos h200]
      rw [hst]
      refine swr_cached_hit net2 _ r b ?_
      rw [getStore_cachePutIn_self, storeGet_storePut, if_pos rfl]
  · intro b hb hnet
    simp only [swr, getStore_open_self, hb, hnet]
  · intro a ha hnet
    simp only [swr, getStore_open_self, ha, hnet]
  · intro hb hnet
    simp only [swr, getStore_open_self, hb, hnet]

/-- An HtmlNavigation-class request for the witnesses. -/
def rHtml : Request :=
  { url := "https://app.example/home", protocol := "https:",
    pathname := "/home", method := "GET",
    accept := some "text/html,application/xhtml+xml" }

/-- A same-status cross-origin response: 200 but not same-origin basic. -/
def corsOk : Response :=
  { status := 200, statusText := "OK", resType := .cors,
    contentType := some "text/html", body := .jstr "page-bytes" }

/-- An HTML page response for the C3 witness. -/
def htmlA : Response :=
  { status := 200, statusText := "OK", resType := .basic,
    contentType := some "text/html", body := .jstr "cached-page" }

/-- A cache state whose runtime store caches the HTML page. -/
def csWithHtml : CacheState := [(RUNTIME_CACHE, [(rHtml.url, htmlA)])]

/-- Witness for C3: with the network down, the concrete cached page is
served from the runtime store. -/
theorem html_swr_contract_witness :
    (swr netFailAll csWithHtml rHtml).res = .responded htmlA :=
  ((html_swr_contract netFailAll csWithHtml rHtml (by decide)).2.1 htmlA rfl).1

/-- A network model that always returns the cross-origin 200 response. -/
def corsNet : Request → Except Unit Response := fun _ => .ok corsOk

/-- C2 counterexample: the stale-while-revalidate write path persists a
status-200 response whose type is `cors`, not the same-origin `basic`
type, refuting the claim that a cross-origin response is never persisted by
any write path. -/
theorem cross_origin_200_persisted :
    corsOk.status = 200 ∧ corsOk.resType ≠ ResType.basic ∧
    entryIn (handleFetch corsNet [] rHtml).st rHtml.url corsOk := by
  refine ⟨rfl, by decide, ?_⟩
  show entryIn [(RUNTIME_CACHE, [(rHtml.url, corsOk)])] rHtml.url corsOk
  exact ⟨(RUNTIME_CACHE, [(rHtml.url, corsOk)]), List.mem_cons_self _ _,
    List.mem_cons_self _ _⟩

/-- C2 amended: every entry any strategy writes has status 200, and on the
cache-first (StaticAsset) path it additionally has the same-origin basic
type; the stale-while-revalidate and network-first paths, however, persist
any 200 network response regardless of its response type. -/
theorem cache_write_requires_200 (net : Request → Except Unit Response)
    (cs : CacheState) (r : Request) (k : String) (v : Response)
    (h : entryIn (handleFetch net cs r).st k v) :
    entryIn cs k v ∨
    (v.status = 200 ∧
      (classify r = RequestClass.staticAsset → v.resType = ResType.basic)) := by
  rcases hcl : classify r
  case skipped =>
    simp only [handleFetch, hcl] at h
    exact Or.inl h
  case staticAsset =>
    simp only [handleFetch, hcl] at h
    rcases hm : cachesMatch cs r.url with _ | resp
    · rcases hnet : net r with u | resp2
      · simp only [cacheFirst, hm, hnet] at h
        exact Or.inl h
      · by_cases hok : resp2.status = 200 ∧ resp2.resType = ResType.basic
        · simp only [cacheFirst, hm, hnet, if_pos hok] at h
          rcases entryIn_cachePutIn _ _ _ _ _ _ h with h' | ⟨hk, hv⟩
          · exact Or.inl h'
          · right
            constructor
            · rw [hv]; exact hok.1
            · intro _; rw [hv]; exact hok.2
        · simp only [cacheFirst, hm, hnet, if_neg hok] at h
          exact Or.inl h
    · simp only [cacheFirst, hm] at h
      exact Or.inl h
  case htmlNav =>
    simp only [handleFetch, hcl] at h
    rcases hnet : net r with u | nr
    · simp only [swr, hnet] at h
      exact Or.inl ((entryIn_open cs RUNTIME_CACHE k v).mp h)
    · by_cases h200 : nr.status = 200
      · simp only [swr, hnet, if_pos h200] at h
        rcases entryIn_cachePutIn _ _ _ _ _ _ h with h' | ⟨hk, hv⟩
        · exact Or.inl ((entryIn_open cs RUNTIME_CACHE k v).mp h')
        · right
          refine ⟨by rw [hv]; exact h200, fun hsa => absurd hsa (by decide)⟩
      · simp only [swr, hnet, if_neg h200] at h
        exact Or.inl ((entryIn_open cs RUNTIME_CACHE k v).mp h)
  case apiCall =>
    simp only [handleFetch, hcl] at h
    rcases hnet : net r with u | nr
    · simp only [networkFirst, hnet] at h
      exact Or.inl ((entryIn_open cs RUNTIME_CACHE k v).mp h)
    · by_cases h200 : nr.status = 200
      · simp only [networkFirst, hnet, if_pos h200] at h
        rcases entryIn_cachePutIn _ _ _ _ _ _ h with h' | ⟨hk, hv⟩
        · exact Or.inl ((entryIn_open cs RUNTIME_CACHE k v).mp h')
        · right
          refine ⟨by rw [hv]; exact h200, fun hsa => absurd hsa (by decide)⟩
      · simp only [networkFirst, hnet, if_neg h200] at h
        exact Or.inl ((entryIn_open cs RUNTIME_CACHE k v).mp h)
  case other =>
    simp only [handleFetch, hcl] at h
    rcases hnet : net r with u | nr <;>
      simp only [defaultPassthrough, hnet] at h <;>
      exact Or.inl h

/-- Witness for the amended C2: applying it to the concrete
stale-while-revalidate run that persisted the cross-origin 200 response. -/
theorem cache_write_requires_200_witness :
    entryIn ([] : CacheState) rHtml.url corsOk ∨
    (corsOk.status = 200 ∧
      (classify rHtml = RequestClass.staticAsset → corsOk.resType = ResType.basic)) :=
  cache_write_requires_200 corsNet [] rHtml rHtml.url corsOk
    (show entryIn [(RUNTIME_CACHE, [(rHtml.url, corsOk)])] rHtml.url corsOk from
      ⟨(RUNTIME_CACHE, [(rHtml.url, corsOk)]), List.mem_cons_self _ _,
        List.mem_cons_self _ _⟩)

/-! ### Claims about the lifecycle handlers -/

theorem fetchAllOk_error_of_bad (net : String → Except Unit Response)
    (assets : List String) (h : ∃ u ∈ assets, assetOk net u = false) :
    fetchAllOk net assets = .error () := by
  induction assets with
  | nil =>
    rcases h with ⟨u, hu, _⟩
    exact absurd hu (List.not_mem_nil u)
  | cons a rest ih =>
    rcases hna : net a with u | ra
    · simp only [fetchAllOk, hna]
    · by_cases hra : 200 ≤ ra.status ∧ ra.status ≤ 299
      · have hrest : ∃ u ∈ rest, assetOk net u = false := by
          rcases h with ⟨u, hu, hbad⟩
          rcases List.mem_cons.mp hu with rfl | hm
          · exfalso
            simp only [assetOk, hna, decide_eq_false_iff_not] at hbad
            exact hbad hra
          · exact ⟨u, hm, hbad⟩
        simp only [fetchAllOk, hna]
        rw [if_pos hra, ih hrest]
      · simp only [fetchAllOk, hna]
        rw [if_neg hra]

theorem fetchAllOk_all (net : String → Except Unit Response) (assets : List String)
    (h : ∀ u ∈ assets, assetOk net u = true) :
    fetchAllOk net assets = .ok (assets.map (fun a => (a, respOf net a))) := by
  induction assets with
  | nil => rfl
  | cons a rest ih =>
    have ha := h a (List.mem_cons_self a rest)
    rcases hna : net a with u | ra
    · simp only [assetOk, hna] at ha
      exact Bool.noConfusion ha
    · have hra : 200 ≤ ra.status ∧ ra.status ≤ 299 := by
        simp only [assetOk, hna, decide_eq_true_eq] at ha
        exact ha
      have hresp : respOf net a = ra := by simp only [respOf, hna]
      simp only [fetchAllOk, hna]
      rw [if_pos hra, ih (fun u hu => h u (List.mem_cons_of_mem a hu))]
      simp only [List.map_cons, hresp]

theorem storeGet_putMany_map (cs : CacheState) (n : String) (f : String → Response)
    (assets : List String) (u : String) :
    storeGet (getStore (putMany cs n (assets.map (fun a => (a, f a)))) n) u
      = if u ∈ assets then some (f u) else storeGet (getStore cs n) u := by
  induction assets generalizing cs with
  | nil => simp [putMany]
  | cons a rest ih =>
    simp only [List.map_cons, putMany]
    rw [ih]
    by_cases hu : u ∈ rest
    · rw [if_pos hu, if_pos (List.mem_cons_of_mem a hu)]
    · rw [if_neg hu, getStore_cachePutIn_self, storeGet_storePut]
      by_cases hua : a = u
      · rw [if_pos hua, if_pos (by rw [← hua]; exact List.mem_cons_self a rest), hua]
      · rw [if_neg hua]
        have hnm : ¬ u ∈ a :: rest := by
          intro hmem
          rcases List.mem_cons.mp hmem with h' | h'
          · exact hua h'.symm
          · exact hu h'
        rw [if_neg hnm]

/-- C4 amended/corrected: the install step always completes, but population
by `cache.addAll` is atomic rather than per-asset best-effort: if any
asset's fetch fails (or yields a non-ok status), the static store gains no
entries at all — the single failure discards the successfully fetched
assets too; when every fetch succeeds, every asset is stored. -/
theorem install_population_atomic (net : String → Except Unit Response)
    (assets : List String) (cs : CacheState) :
    ((∃ u ∈ assets, assetOk net u = false) →
        installWith net assets cs = cachesOpen cs CACHE_NAME) ∧
    ((∀ u ∈ assets, assetOk net u = true) →
        ∀ u ∈ assets, net u = .ok (respOf net u) ∧
          storeGet (getStore (installWith net assets cs) CACHE_NAME) u
            = some (respOf net u)) := by
  constructor
  · intro h
    rw [installWith, fetchAllOk_error_of_bad net assets h]
  · intro h u hu
    constructor
    · have ha := h u hu
      rcases hnu : net u with e | r
      · simp only [assetOk, hnu] at ha
        exact Bool.noConfusion ha
      · simp only [respOf, hnu]
    · rw [installWith, fetchAllOk_all net assets h, storeGet_putMany_map, if_pos hu]

/-- A plain 200 same-origin response carrying its URL as body. -/
def plainOk (u : String) : Response :=
  { status := 200, statusText := "OK", resType := .basic,
    contentType := some "text/plain", body := .jstr u }

/-- A network model on which only the logo fetch fails. -/
def netFailOne : String → Except Unit Response :=
  fun u => if u = "/logo.svg" then .error () else .ok (plainOk u)

/-- A network model on which every asset fetch succeeds with 200. -/
def netAllOk : String → Except Unit Response := fun u => .ok (plainOk u)

/-- C4 counterexample: installing the source asset list when only the logo
fetch fails still completes, but leaves the static store empty — the index
document, whose fetch succeeded, is not stored, because the batch write of
`cache.addAll` is atomic. -/
theorem install_one_failure_discards_all :
    netFailOne "/index.html" = .ok (plainOk "/index.html") ∧
    installWith netFailOne STATIC_ASSETS [] = [(CACHE_NAME, [])] ∧
    storeGet (getStore (installWith netFailOne STATIC_ASSETS []) CACHE_NAME)
        "/index.html" = none :=
  ⟨rfl, rfl, rfl⟩

/-- Witness for the amended C4: a failing batch adds nothing, and a fully
successful batch stores the logo asset. -/
theorem install_population_atomic_witness :
    installWith netFailOne STATIC_ASSETS [] = cachesOpen [] CACHE_NAME ∧
    storeGet (getStore (installWith netAllOk STATIC_ASSETS []) CACHE_NAME)
        "/logo.svg" = some (respOf netAllOk "/logo.svg") :=
  ⟨(install_population_atomic netFailOne STATIC_ASSETS []).1
      ⟨"/logo.svg", by decide, by decide⟩,
   ((install_population_atomic netAllOk STATIC_ASSETS []).2 (fun u _ => rfl)
      "/logo.svg" (by decide)).2⟩

/-- C5 counterexample: activating when only the static store and one stale
store exist succeeds and deletes the stale store, yet the resulting name set
is only the static name: the runtime name does not exist afterwards, so the
set is not exactly the two current names. -/
theorem activation_not_exactly_two :
    (activateOn (fun _ => false) [(CACHE_NAME, []), ("artisan-roasters-v0", [])]).allOk
        = true ∧
    (activateOn (fun _ => false)
        [(CACHE_NAME, []), ("artisan-roasters-v0", [])]).st.map Prod.fst
      = [CACHE_NAME] ∧
    RUNTIME_CACHE ∉ (activateOn (fun _ => false)
        [(CACHE_NAME, []), ("artisan-roasters-v0", [])]).st.map Prod.fst := by
  refine ⟨rfl, rfl, by decide⟩

/-- C5 amended/corrected: a successful activation keeps exactly the stores
whose name is the current static or runtime name (so the surviving name set
is a subset of the two — activation deletes stores but never creates them),
it is idempotent, and when both current stores exist beforehand the
surviving name set is exactly the two current names. -/
theorem activation_store_set (cs : CacheState) :
    (activateOn (fun _ => false) cs).st
        = cs.filter (fun p => p.1 == CACHE_NAME || p.1 == RUNTIME_CACHE) ∧
    (activateOn (fun _ => false) (activateOn (fun _ => false) cs).st).st
        = (activateOn (fun _ => false) cs).st ∧
    ((∃ p ∈ cs, p.1 = CACHE_NAME) → (∃ p ∈ cs, p.1 = RUNTIME_CACHE) →
      ∀ n, (∃ p ∈ (activateOn (fun _ => false) cs).st, p.1 = n) ↔
        (n = CACHE_NAME ∨ n = RUNTIME_CACHE)) := by
  refine ⟨by simp [activateOn], by simp [activateOn, List.filter_filter], ?_⟩
  intro h1 h2 n
  constructor
  · rintro ⟨p, hp, hpn⟩
    simp only [activateOn] at hp
    have hcond := (List.mem_filter.mp hp).2
    simp only [Bool.or_false, Bool.or_eq_true, beq_iff_eq] at hcond
    rcases hcond with h | h
    · exact Or.inl (hpn ▸ h)
    · exact Or.inr (hpn ▸ h)
  · rintro (rfl | rfl)
    · rcases h1 with ⟨p, hp, hpn⟩
      refine ⟨p, ?_, hpn⟩
      simp only [activateOn]
      exact List.mem_filter.mpr ⟨hp, by simp [hpn]⟩
    · rcases h2 with ⟨p, hp, hpn⟩
      refine ⟨p, ?_, hpn⟩
      simp only [activateOn]
      exact List.mem_filter.mpr ⟨hp, by simp [hpn]⟩

/-- A cache state with both current stores and one stale store. -/
def csAllThree : CacheState :=
  [(CACHE_NAME, []), (RUNTIME_CACHE, []), ("artisan-roasters-v0", [])]

/-- Witness for the amended C5: with both current stores and a stale store
present, the runtime name survives activation and the stale name does not. -/
theorem activation_store_set_witness :
    (∃ p ∈ (activateOn (fun _ => false) csAllThree).st, p.1 = RUNTIME_CACHE) ∧
    ¬ ∃ p ∈ (activateOn (fun _ => false) csAllThree).st, p.1 = "artisan-roasters-v0" :=
  ⟨((activation_store_set csAllThree).2.2 ⟨(CACHE_NAME, []), List.mem_cons_self _ _, rfl⟩
      ⟨(RUNTIME_CACHE, []), List.mem_cons_of_mem _ (List.mem_cons_self _ _), rfl⟩
      RUNTIME_CACHE).mpr (Or.inr rfl),
   fun hex =>
    (by decide :
        ¬("artisan-roasters-v0" = CACHE_NAME ∨ "artisan-roasters-v0" = RUNTIME_CACHE))
      (((activation_store_set csAllThree).2.2
          ⟨(CACHE_NAME, []), List.mem_cons_self _ _, rfl⟩
          ⟨(RUNTIME_CACHE, []), List.mem_cons_of_mem _ (List.mem_cons_self _ _), rfl⟩
          "artisan-roasters-v0").mp hex)⟩

/-- C6: every stale store name's deletion is attempted (the handler starts
all deletions before joining them), and a name whose deletion does not fail
is removed from the store set even when deleting another stale name fails:
deletion failures are isolated per store name. -/
theorem activation_cleanup_isolated (delFails : String → Bool) (cs : CacheState) :
    (activateOn delFails cs).attempted = staleNames cs ∧
    (∀ n, n ∈ staleNames cs → delFails n = false →
      ¬ ∃ p ∈ (activateOn delFails cs).st, p.1 = n) := by
  refine ⟨rfl, ?_⟩
  intro n hn hdf
  rintro ⟨p, hp, hpn⟩
  simp only [activateOn] at hp
  have hcond := (List.mem_filter.mp hp).2
  rw [hpn, hdf] at hcond
  have hns := (List.mem_filter.mp hn).2
  simp only [Bool.or_false, Bool.not_eq_true', Bool.or_eq_false_iff, beq_eq_false_iff_ne]
    at hns
  simp only [Bool.or_false, Bool.or_eq_true, beq_iff_eq] at hcond
  rcases hcond with h | h
  · exact hns.1 h
  · exact hns.2 h

/-- A deletion-failure oracle under which only the first stale store's
deletion fails. -/
def delFailA : String → Bool := fun n => n == "artisan-old-a"

/-- A cache state with the static store and two stale stores. -/
def csTwoStale : CacheState :=
  [(CACHE_NAME, []), ("artisan-old-a", []), ("artisan-old-b", [])]

/-- Witness for C6: with two stale stores where deleting the first fails,
both deletions are attempted and the second stale store is still removed. -/
theorem activation_cleanup_isolated_witness :
    (activateOn delFailA csTwoStale).attempted = ["artisan-old-a", "artisan-old-b"] ∧
    ¬ ∃ p ∈ (activateOn delFailA csTwoStale).st, p.1 = "artisan-old-b" :=
  ⟨(activation_cleanup_isolated delFailA csTwoStale).1.trans (by decide),
   (activation_cleanup_isolated delFailA csTwoStale).2 "artisan-old-b" (by decide) rfl⟩

end SW
